import Mathlib

/-!
Shallow embedding of the pyroxy request-processing pipeline (src/main.py):
the `ResponseCache` store, the three fetch helpers (`get_page_info`,
`get_raw_page`, `get_page_contents`), the dispatcher `get_page`, the encoder
`create_response` and the pipeline `process_request`.

Modelling conventions:
- Python `time.time()` is passed in as an explicit integer timestamp, one
  parameter per call site (`t1` = `start_time`, `t2` = the cache lookup,
  `t3` = the `time.time()` inside `create_response`, `t4` = the cache store).
- The outbound HTTP session (`requests`) is an oracle `Transport`; a raised
  `requests.RequestException` is its `Except.error` case.
- The Python codec machinery (`bytes.decode` / `str.encode`) is an oracle
  `Codecs`; `bytes.decode(cs)` can succeed, raise `UnicodeError`, or raise
  `LookupError` (unknown codec name).
- An uncaught Python exception is the `Except.error` case of `PyExc`
  (`ValueError` from `int(...)`, `LookupError` from an unknown codec).
- Query parameters are `Option String` (`none` = parameter absent).
- Python dict values are modelled by the `FetchResult` inductive; the
  `response_time` key that `create_response` injects into the page dict is
  the `rt` field of `TimedPage`.
-/

namespace Pyroxy

/-- Python truthiness of an optional string (`None` and `""` are falsy). -/
def truthy : Option String → Bool
  | none => false
  | some s => s ≠ ""

/-- Decidable equality for `Except`, so concrete pipeline runs can be
checked with `decide`. -/
instance exceptDecEq {ε α : Type} [DecidableEq ε] [DecidableEq α] :
    DecidableEq (Except ε α) := fun a b =>
  match a, b with
  | .ok x, .ok y => if h : x = y then .isTrue (by rw [h]) else .isFalse (by simp [h])
  | .error x, .error y => if h : x = y then .isTrue (by rw [h]) else .isFalse (by simp [h])
  | .ok _, .error _ => .isFalse (by simp)
  | .error _, .ok _ => .isFalse (by simp)

/-- ASCII whitespace stripped by Python `int(...)` (model of `str.strip`). -/
def isSpaceChar (c : Char) : Bool :=
  c = ' ' ∨ c = '\t' ∨ c = '\n' ∨ c = '\r'

/-- ASCII digit run to a number; `none` when empty or a non-digit occurs. -/
def digits? (l : List Char) : Option Nat :=
  if l ≠ [] ∧ l.all (fun c => '0' ≤ c ∧ c ≤ '9') then
    some (l.foldl (fun a c => 10 * a + (c.toNat - 48)) 0)
  else none

/-- Python `int(s)` on a string: optional sign, digits, surrounding
whitespace; any other shape raises `ValueError` (modelled as `none`). -/
def pyInt (s : String) : Option Int :=
  let t := ((s.data.dropWhile isSpaceChar).reverse.dropWhile isSpaceChar).reverse
  match t with
  | '-' :: rest => (digits? rest).map (fun n => -(n : Int))
  | '+' :: rest => (digits? rest).map (fun n => (n : Int))
  | rest => (digits? rest).map (fun n => (n : Int))

/-- ASCII `str.lower()` on a character (the formats and charsets the
pipeline compares are ASCII). -/
def lowerChar (c : Char) : Char :=
  if 'A' ≤ c ∧ c ≤ 'Z' then Char.ofNat (c.toNat + 32) else c

/-- ASCII `str.lower()`. -/
def strLower (s : String) : String := String.mk (s.data.map lowerChar)

/-- The `status` sub-dict of `get_page_contents` results: either the
url/content_type/content_length/http_code record or `\x7b"error": msg\x7d`. -/
inductive Status where
  | ok (url : String) (contentType : Option String) (contentLength : Int) (httpCode : Int)
  | err (msg : String)
deriving DecidableEq

/-- The page dicts produced by the three fetch helpers:
`info` from `get_page_info`, `raw` from `get_raw_page`, `content` from
`get_page_contents`, and `err` for the top-level `\x7b"error": msg\x7d` dict
returned by `get_page_info` / `get_raw_page` on a transport failure. -/
inductive FetchResult where
  | info (url : String) (contentType : Option String) (contentLength : Int) (httpCode : Int)
  | raw (content : List Nat) (contentType : Option String) (contentLength : Int)
  | content (contents : Option String) (status : Status)
  | err (msg : String)
deriving DecidableEq

/-- A page dict together with the `response_time` key that
`create_response` may have injected (at top level, or inside the `status`
sub-dict when one exists — the position is recovered at serialization). -/
structure TimedPage where
  page : FetchResult
  rt : Option Int
deriving DecidableEq

/-- A value of `ResponseCache.cache`: `\x7b'data': value, 'expiry': t\x7d`. -/
structure CacheItem where
  data : TimedPage
  expiry : Int
deriving DecidableEq

/-- The `ResponseCache` store: a Python dict (association list in
insertion order, keys unique) plus `max_size`. -/
structure ResponseCache where
  cache : List (String × CacheItem)
  maxSize : Nat
deriving DecidableEq

/-- Python dict lookup `d[k]` / `k in d` on the association list. -/
def lookupEntry (k : String) : List (String × CacheItem) → Option CacheItem
  | [] => none
  | (k', it) :: rest => if k' = k then some it else lookupEntry k rest

/-- Python `del d[k]`. -/
def eraseKey (k : String) : List (String × CacheItem) → List (String × CacheItem)
  | [] => []
  | (k', it) :: rest => if k' = k then rest else (k', it) :: eraseKey k rest

/-- Python dict assignment `d[k] = v`: replace in place if the key exists,
otherwise append at the end (insertion order). -/
def insertEntry (k : String) (it : CacheItem) :
    List (String × CacheItem) → List (String × CacheItem)
  | [] => [(k, it)]
  | (k', it') :: rest =>
    if k' = k then (k, it) :: rest else (k', it') :: insertEntry k it rest

/-- Replace the `data` field of the entry at `k`, keeping its expiry.
(Used to model Python aliasing: the dict handed out by `get` is the stored
dict itself, so a later in-place mutation is visible in the store.) -/
def updateData (k : String) (d : TimedPage) :
    List (String × CacheItem) → List (String × CacheItem)
  | [] => []
  | (k', it') :: rest =>
    if k' = k then (k', ⟨d, it'.expiry⟩) :: rest else (k', it') :: updateData k d rest

/-- Model of `ResponseCache.get` (src/main.py:46-54): return the stored dict while
`item['expiry'] > time.time()`; an expired entry is deleted and `None`
returned.  Returns the (value, updated store) pair. -/
def ResponseCache.get (c : ResponseCache) (k : String) (now : Int) :
    Option TimedPage × ResponseCache :=
  match lookupEntry k c.cache with
  | some it =>
    if now < it.expiry then (some it.data, c)
    else (none, ⟨eraseKey k c.cache, c.maxSize⟩)
  | none => (none, c)

/-- Model of `ResponseCache.set` (src/main.py:56-66): if `len(self.cache) >=
self.max_size` the whole dict is replaced by an empty one, then the new
entry is inserted with expiry `time.time() + expiry_seconds`. -/
def ResponseCache.set (c : ResponseCache) (k : String) (v : TimedPage)
    (expirySeconds : Int) (now : Int) : ResponseCache :=
  let base := if c.cache.length ≥ c.maxSize then ([] : List (String × CacheItem)) else c.cache
  ⟨insertEntry k ⟨v, now + expirySeconds⟩ base, c.maxSize⟩

/-- Insert a list of keys (same value/ttl/time) one after the other;
used to state the eviction-cliff property. -/
def fillStore (ks : List String) (v : TimedPage) (ttl now : Int)
    (c : ResponseCache) : ResponseCache :=
  ks.foldl (fun acc k => acc.set k v ttl now) c

/-- What `requests` hands back on a successful (non-raising) request:
status code, the `content-type` and `content-length` headers, body bytes. -/
structure HttpResp where
  statusCode : Int
  contentType : Option String
  contentLength : Option String
  content : List Nat
deriving DecidableEq

/-- The outbound HTTP session as an oracle.  `head` is
`session.head(url, allow_redirects=True, timeout=10)`, `request m u` is
`session.request(method=m, url=u, allow_redirects=True, timeout=10)`;
`Except.error msg` is a raised `requests.RequestException` with
`str(e) = msg`. -/
structure Transport where
  head : String → Except String HttpResp
  request : String → String → Except String HttpResp

/-- Outcome of Python `bytes.decode(cs)` (strict): a string, a
`UnicodeError`, or a `LookupError` when `cs` names no known codec. -/
inductive DecodeResult where
  | ok (s : String)
  | unicodeError
  | lookupError
deriving DecidableEq

/-- The Python codec machinery as an oracle. -/
structure Codecs where
  /-- Python `bytes.decode(cs)`, strict error handling. -/
  decode : String → List Nat → DecodeResult
  /-- Python `str.encode('utf-8')` (total). -/
  encodeUtf8 : String → List Nat
  /-- Python `bytes.decode('utf-8', errors='replace')` (total). -/
  utf8Replace : List Nat → String

/-- An uncaught Python exception escaping the pipeline. -/
inductive PyExc where
  | valueError (arg : String)
  | lookupError (charset : String)
deriving DecidableEq

/-- Model of `get_page_info` (src/main.py:73-84).  A transport failure is caught
(`requests.RequestException`) and becomes the `\x7b"error"\x7d` dict; but the
`ValueError` raised by `int(...)` on an unparsable `content-length`
header is NOT caught and escapes. -/
def getPageInfo (T : Transport) (url : String) : Except PyExc FetchResult :=
  match T.head url with
  | .error e => .ok (.err e)
  | .ok r =>
    match r.contentLength with
    | none => .ok (.info url r.contentType (-1) r.statusCode)
    | some s =>
      match pyInt s with
      | some n => .ok (.info url r.contentType n r.statusCode)
      | none => .error (.valueError s)

/-- Model of `get_raw_page` (src/main.py:87-110).  When a truthy non-utf-8 charset
is supplied the body is decoded with it and re-encoded as utf-8; a
`UnicodeError` during that decode is swallowed (original bytes kept), but
a `LookupError` (unknown codec name) is NOT caught and escapes. -/
def getRawPage (T : Transport) (K : Codecs) (url method : String)
    (charset : Option String) : Except PyExc FetchResult :=
  match T.request method url with
  | .error e => .ok (.err e)
  | .ok r =>
    let step : Except PyExc (List Nat) :=
      if truthy charset = true ∧ strLower (charset.getD "") ≠ "utf-8" then
        match K.decode (charset.getD "") r.content with
        | .ok s => .ok (K.encodeUtf8 s)
        | .unicodeError => .ok r.content
        | .lookupError => .error (.lookupError (charset.getD ""))
      else .ok r.content
    step.map (fun content => .raw content r.contentType (content.length : Int))

/-- Model of `get_page_contents` (src/main.py:113-145).  A truthy charset is tried
strictly; on `UnicodeError` the body is re-decoded as utf-8 with
replacement; a `LookupError` (unknown codec) is NOT caught and escapes.
Without a truthy charset the body is decoded utf-8/replace directly. -/
def getPageContents (T : Transport) (K : Codecs) (url method : String)
    (charset : Option String) : Except PyExc FetchResult :=
  match T.request method url with
  | .error e => .ok (.content none (.err e))
  | .ok r =>
    let dec : Except PyExc String :=
      if truthy charset = true then
        match K.decode (charset.getD "") r.content with
        | .ok s => .ok s
        | .unicodeError => .ok (K.utf8Replace r.content)
        | .lookupError => .error (.lookupError (charset.getD ""))
      else .ok (K.utf8Replace r.content)
    dec.map (fun s =>
      .content (some s) (.ok url r.contentType (r.content.length : Int) r.statusCode))

/-- The query parameters the pipeline reads from `request.args`
(`none` = parameter absent from the query string). -/
structure Args where
  url : Option String
  charset : Option String
  disableCache : Option String
  cacheMaxAge : Option String
  callback : Option String
deriving DecidableEq

/-- The params dict after `process_request` adds `format` and
`requestMethod` (src/main.py:168-170). -/
structure Params extends Args where
  format : String
  requestMethod : String
deriving DecidableEq

/-- Model of `int(params.get("cacheMaxAge", DEFAULT_CACHE_TIME))`: the default is
already the int 3600; a supplied string goes through `int(...)`
(`none` = `ValueError`). -/
def cacheMaxAgeVal (a : Args) : Option Int :=
  match a.cacheMaxAge with
  | none => some 3600
  | some s => pyInt s

/-- The cache key (src/main.py:179):
`f"\x7bmethod\x7d:\x7burl\x7d:\x7bfmt\x7d:\x7bparams.get('charset', '')\x7d"`
— an absent charset is coerced to the empty string. -/
def cacheKey (method url fmt : String) (charset : Option String) : String :=
  method ++ ":" ++ url ++ ":" ++ fmt ++ ":" ++ charset.getD ""

/-- Model of `get_page` (src/main.py:148-160): dispatch on the requested format
(`info` and `HEAD` to the header probe, `raw` to the raw fetch, anything
else to the content fetch).  The pipeline always supplies `url`,
`format` and `requestMethod`; an absent url is modelled as `""`. -/
def getPage (T : Transport) (K : Codecs) (p : Params) : Except PyExc FetchResult :=
  let url := p.url.getD ""
  if strLower p.format = "info" ∨ p.requestMethod = "HEAD" then
    getPageInfo T url
  else if strLower p.format = "raw" then
    getRawPage T K url p.requestMethod p.charset
  else
    getPageContents T K url p.requestMethod p.charset

/-- Model of `json.dumps` escaping of a string body, restricted to the characters
the model exercises (backslash and double quote). -/
def jesc (s : String) : String :=
  String.mk (s.data.foldr
    (fun c acc =>
      if c = '"' then '\\' :: '"' :: acc
      else if c = '\\' then '\\' :: '\\' :: acc
      else c :: acc) [])

/-- Model of `json.dumps` of a string value. -/
def jstr (s : String) : String := "\"" ++ jesc s ++ "\""

/-- Model of `json.dumps` of a string-or-None value. -/
def jsonOptStr : Option String → String
  | none => "null"
  | some s => jstr s

/-- The serialized `response_time` key, when it has been injected (it is
always the most recently inserted key of its dict). -/
def rtField : Option Int → String
  | none => ""
  | some r => ", \"response_time\": " ++ toString r

/-- Model of `json.dumps` of the `status` sub-dict (default separators `", "` and
`": "`, keys in insertion order). -/
def dumpStatus (rt : Option Int) : Status → String
  | .ok u ct cl hc =>
    "\x7b\"url\": " ++ jstr u ++ ", \"content_type\": " ++ jsonOptStr ct ++
      ", \"content_length\": " ++ toString cl ++ ", \"http_code\": " ++ toString hc ++
      rtField rt ++ "\x7d"
  | .err e => "\x7b\"error\": " ++ jstr e ++ rtField rt ++ "\x7d"

/-- Model of `json.dumps(page)` for the page dicts of the pipeline, keys in
insertion order.  For `content` pages the injected `response_time` sits
inside the `status` sub-dict, otherwise at top level (src/main.py:236-239).
A `raw` page never reaches `json.dumps` from the pipeline (`create_response`
short-circuits it; `json.dumps` would raise `TypeError` on bytes), so that
arm is given a dummy serialization. -/
def dumpPage (tp : TimedPage) : String :=
  match tp.page with
  | .info u ct cl hc =>
    "\x7b\"url\": " ++ jstr u ++ ", \"content_type\": " ++ jsonOptStr ct ++
      ", \"content_length\": " ++ toString cl ++ ", \"http_code\": " ++ toString hc ++
      rtField tp.rt ++ "\x7d"
  | .raw _ _ _ => ""
  | .content c st =>
    "\x7b\"contents\": " ++ jsonOptStr c ++ ", \"status\": " ++ dumpStatus tp.rt st ++ "\x7d"
  | .err e => "\x7b\"error\": " ++ jstr e ++ rtField tp.rt ++ "\x7d"

/-- A response body: raw bytes (raw passthrough) or a string (JSON/JSONP,
or the empty OPTIONS body). -/
inductive Body where
  | bytes (b : List Nat)
  | str (s : String)
deriving DecidableEq

/-- A Flask `Response` as the pipeline builds it: body, the headers dict
(in insertion order; a `None` value is an `Option.none`), the `mimetype`
argument when one was passed, and the HTTP status code. -/
structure Resp where
  body : Body
  headers : List (String × Option String)
  mimetype : Option String
  status : Int := 200
deriving DecidableEq

/-- Python `page.get("error")` is truthy: only the top-level error dict has an
`error` key, and Python truthiness of its string value. -/
def hasError : FetchResult → Bool
  | .err m => m ≠ ""
  | _ => false

/-- Python `page.get("content", b"")`. -/
def pageContent : FetchResult → List Nat
  | .raw c _ _ => c
  | _ => []

/-- Python `page.get("contentLength", 0)` (the `info` dict uses the snake_case
key `content_length`, so it falls back to the default here). -/
def pageContentLength : FetchResult → Int
  | .raw _ _ cl => cl
  | _ => 0

/-- Python `page.get("contentType", "text/plain")`: on a `raw` page the key
exists (possibly with value `None`), so the default is not used. -/
def pageContentType : FetchResult → Option String
  | .raw _ ct _ => ct
  | _ => some "text/plain"

/-- The `Cache-Control` part of `create_response` (src/main.py:212-218):
only for GET/HEAD; `max-age` is `0` when `disableCache == "true"`, else
`max(MIN_CACHE_TIME, int(params.get("cacheMaxAge", DEFAULT_CACHE_TIME)))` —
the `int(...)` raises `ValueError` on a non-integer value. -/
def cacheControlHeaders (p : Params) : Except PyExc (List (String × Option String)) :=
  if p.requestMethod = "GET" ∨ p.requestMethod = "HEAD" then
    if p.disableCache = some "true" then
      .ok [("Cache-Control", some "public, max-age=0, stale-if-error=600")]
    else
      match cacheMaxAgeVal p.toArgs with
      | some n =>
        .ok [("Cache-Control",
          some ("public, max-age=" ++ toString (max 300 n) ++ ", stale-if-error=600"))]
      | none => .error (.valueError (p.cacheMaxAge.getD ""))
  else .ok []

/-- The rest of `create_response` (src/main.py:221-260), after the headers
prefix has been computed: the raw short-circuit, the `response_time`
injection (an in-place mutation of the page dict — returned as the second
component), the JSON content type, and the JSONP wrapping.  `rt` is the
computed `time.time() - start_time`. -/
def encodePage (p : Params) (hdrs : List (String × Option String))
    (tp : TimedPage) (rt : Int) : Resp × TimedPage :=
  if p.format = "raw" ∧ hasError tp.page = false then
    ({ body := .bytes (pageContent tp.page)
       headers := hdrs ++
         [("Content-Length", some (toString (pageContentLength tp.page))),
          ("Content-Type", pageContentType tp.page)]
       mimetype := none }, tp)
  else
    let tp' : TimedPage := ⟨tp.page, some rt⟩
    let hdrs2 := hdrs ++
      [("Content-Type", some ("application/json; charset=" ++ p.charset.getD "utf-8"))]
    if truthy p.callback = true then
      ({ body := .str (p.callback.getD "" ++ "(" ++ dumpPage tp' ++ ");")
         headers := hdrs2
         mimetype := some "application/javascript" }, tp')
    else
      ({ body := .str (dumpPage tp')
         headers := hdrs2
         mimetype := some "application/json" }, tp')

/-- Model of `create_response` (src/main.py:207-260): cache headers, the fixed
`Via` header, then the format-dependent encoding.  The only way it raises
is the `int(cacheMaxAge)` in the `Cache-Control` computation. -/
def createResponse (p : Params) (tp : TimedPage) (rt : Int) :
    Except PyExc (Resp × TimedPage) :=
  (cacheControlHeaders p).map (fun h0 =>
    encodePage p (h0 ++ [("Via", some "pyroxy-py v1.0.0")]) tp rt)

/-- What one run of `process_request` produces: the response, the cache
store afterwards, and whether the outbound fetch (`get_page`) ran. -/
structure Outcome where
  resp : Resp
  store : ResponseCache
  fetched : Bool
deriving DecidableEq

/-- Model of `process_request` (src/main.py:163-204).  Timestamps: `t1` is
`start_time`, `t2` the `time.time()` inside the cache `get`, `t3` the one
inside `create_response`, `t4` the one inside the cache `set`.  On a cache
hit the function returns the encoded cached page without fetching; the
in-place `response_time` mutation of the cached dict is modelled by
`updateData` (the store aliases the dict `create_response` mutates).  On a
miss it fetches, encodes, and (for GET/HEAD with caching enabled) stores
the mutated page dict with ttl `max(300, int(cacheMaxAge))`. -/
def processRequest (T : Transport) (K : Codecs) (fmt method : String)
    (args : Args) (t1 t2 t3 t4 : Int) (store : ResponseCache) :
    Except PyExc Outcome :=
  if method = "OPTIONS" then
    .ok ⟨{ body := .str "", headers := [], mimetype := none }, store, false⟩
  else
    match args.url with
    | none =>
      .ok ⟨{ body := .str "\x7b\"error\":\"No URL provided. Please add a url parameter.\"\x7d"
             headers := [], mimetype := some "application/json", status := 400 },
           store, false⟩
    | some u =>
      let p : Params := ⟨args, fmt, method⟩
      let key := cacheKey method u fmt args.charset
      let consult : Option TimedPage × ResponseCache :=
        if (method = "GET" ∨ method = "HEAD") ∧ ¬(args.disableCache = some "true") then
          store.get key t2
        else (none, store)
      match consult with
      | (some pg, store1) =>
        (createResponse p pg (t3 - t1)).map (fun r =>
          ⟨r.1, ⟨updateData key r.2 store1.cache, store1.maxSize⟩, false⟩)
      | (none, store1) =>
        (getPage T K p).bind (fun page =>
          (createResponse p ⟨page, none⟩ (t3 - t1)).bind (fun r =>
            if (method = "GET" ∨ method = "HEAD") ∧ ¬(args.disableCache = some "true") then
              match cacheMaxAgeVal args with
              | some n => .ok ⟨r.1, store1.set key r.2 (max 300 n) t4, true⟩
              | none => .error (.valueError (args.cacheMaxAge.getD ""))
            else .ok ⟨r.1, store1, true⟩))

/-- Model of `handle_request` (src/main.py:289-294): the route rejects any format
segment other than `get`, `raw`, `json`, `info` with a 400, and otherwise
runs the pipeline. -/
def handleRequest (T : Transport) (K : Codecs) (fmt method : String)
    (args : Args) (t1 t2 t3 t4 : Int) (store : ResponseCache) :
    Except PyExc Outcome :=
  if fmt = "get" ∨ fmt = "raw" ∨ fmt = "json" ∨ fmt = "info" then
    processRequest T K fmt method args t1 t2 t3 t4 store
  else
    .ok ⟨{ body := .str "\x7b\"error\":\"Invalid format. Use one of: get, raw, json, info\"\x7d"
           headers := [], mimetype := some "application/json", status := 400 },
         store, false⟩

/-! Concrete fixtures used by witness theorems. -/

/-- A transport whose every request raises `requests.RequestException("x")`. -/
def failT : Transport := ⟨fun _ => .error "x", fun _ _ => .error "x"⟩

/-- A transport that always answers 200 with two body bytes and no
`content-length` header. -/
def okT : Transport :=
  ⟨fun _ => .ok ⟨200, some "text/html", none, [104, 105]⟩,
   fun _ _ => .ok ⟨200, some "text/html", none, [104, 105]⟩⟩

/-- A transport that answers with an unparsable `content-length` header. -/
def badLenT : Transport :=
  ⟨fun _ => .ok ⟨200, some "text/html", some "abc", []⟩, fun _ _ => .error "x"⟩

/-- A codec oracle in which every named codec is unknown. -/
def noCodecs : Codecs := ⟨fun _ _ => .lookupError, fun _ => [], fun _ => ""⟩

/-- A plain query: `url` given, nothing else. -/
def args0 : Args := ⟨some "http://e", none, none, none, none⟩

/-- A sample cached page value. -/
def pg0 : TimedPage := ⟨.err "boom", none⟩

/-! Association-list lemmas for the store. -/

theorem lookupEntry_insert_self (k : String) (it : CacheItem) :
    ∀ l, lookupEntry k (insertEntry k it l) = some it := by
  intro l
  induction l with
  | nil => simp [insertEntry, lookupEntry]
  | cons hd tl ih =>
    obtain ⟨k', it'⟩ := hd
    by_cases h : k' = k
    · simp [insertEntry, h, lookupEntry]
    · simp [insertEntry, h, lookupEntry, ih]

theorem lookupEntry_insert_ne (k k' : String) (it : CacheItem) (h : k' ≠ k) :
    ∀ l, lookupEntry k' (insertEntry k it l) = lookupEntry k' l := by
  have hk : ¬ k = k' := fun e => h e.symm
  intro l
  induction l with
  | nil => simp [insertEntry, lookupEntry, hk]
  | cons hd tl ih =>
    obtain ⟨k1, it1⟩ := hd
    by_cases h1 : k1 = k
    · subst h1
      simp [insertEntry, lookupEntry, hk]
    · simp [insertEntry, h1, lookupEntry, ih]

theorem insertEntry_fresh (k : String) (it : CacheItem) :
    ∀ l, lookupEntry k l = none → insertEntry k it l = l ++ [(k, it)] := by
  intro l
  induction l with
  | nil => simp [insertEntry]
  | cons hd tl ih =>
    obtain ⟨k1, it1⟩ := hd
    intro h
    by_cases h1 : k1 = k
    · simp [lookupEntry, h1] at h
    · simp [lookupEntry, h1] at h
      simp [insertEntry, h1, ih h]

theorem lookupEntry_updateData_expiry (k k' : String) (d : TimedPage) :
    ∀ l, (lookupEntry k' (updateData k d l)).map CacheItem.expiry =
      (lookupEntry k' l).map CacheItem.expiry := by
  intro l
  induction l with
  | nil => simp [updateData]
  | cons hd tl ih =>
    obtain ⟨k1, it1⟩ := hd
    simp only [updateData]
    by_cases h1 : k1 = k
    · rw [if_pos h1]
      simp only [lookupEntry]
      by_cases h2 : k1 = k'
      · rw [if_pos h2, if_pos h2]; rfl
      · rw [if_neg h2, if_neg h2]
    · rw [if_neg h1]
      simp only [lookupEntry]
      by_cases h2 : k1 = k'
      · rw [if_pos h2, if_pos h2]
      · rw [if_neg h2, if_neg h2]; exact ih

/-! Cache-key structure (claim C1). -/

theorem colon_split (b1 b2 : List Char) :
    ∀ a1 a2 : List Char, ':' ∉ a1 → ':' ∉ a2 →
      a1 ++ ':' :: b1 = a2 ++ ':' :: b2 → a1 = a2 ∧ b1 = b2 := by
  intro a1
  induction a1 with
  | nil =>
    intro a2 _ h2 h
    cases a2 with
    | nil => simpa using h
    | cons c t =>
      simp only [List.nil_append, List.cons_append, List.cons.injEq] at h
      exact absurd (h.1 ▸ List.mem_cons_self c _) (fun hm => h2 (h.1 ▸ hm))
  | cons c t ih =>
    intro a2 h1 h2 h
    cases a2 with
    | nil =>
      simp only [List.cons_append, List.nil_append, List.cons.injEq] at h
      exact absurd (List.mem_cons_self c t) (h.1 ▸ h1)
    | cons c2 t2 =>
      simp only [List.cons_append, List.cons.injEq] at h
      obtain ⟨hc, ht⟩ := h
      have h1' : ':' ∉ t := fun hm => h1 (List.mem_cons_of_mem _ hm)
      have h2' : ':' ∉ t2 := fun hm => h2 (List.mem_cons_of_mem _ hm)
      obtain ⟨he, hb⟩ := ih t2 h1' h2' ht
      exact ⟨by rw [hc, he], hb⟩

theorem cacheKey_data (m u f : String) (c : Option String) :
    (cacheKey m u f c).data =
      m.data ++ ':' :: (u.data ++ ':' :: (f.data ++ ':' :: (c.getD "").data)) := by
  simp [cacheKey, String.data_append]

/-- Claim C1 (amended): the cache key is a deterministic function of
`(method, url, format, charset)` with an absent charset coerced to the
empty string; restricted to colon-free method, url and format components
it is injective in `(method, url, format, charset.getD "")` — but it is
not injective in the raw four fields, because an absent charset and an
empty-string charset produce the same key (see the counterexample). -/
theorem cacheKey_eq_iff (m1 u1 f1 m2 u2 f2 : String) (c1 c2 : Option String)
    (hm1 : ':' ∉ m1.data) (hm2 : ':' ∉ m2.data)
    (hu1 : ':' ∉ u1.data) (hu2 : ':' ∉ u2.data)
    (hf1 : ':' ∉ f1.data) (hf2 : ':' ∉ f2.data) :
    cacheKey m1 u1 f1 c1 = cacheKey m2 u2 f2 c2 ↔
      (m1 = m2 ∧ u1 = u2 ∧ f1 = f2 ∧ c1.getD "" = c2.getD "") := by
  constructor
  · intro h
    have hd := congrArg String.data h
    rw [cacheKey_data, cacheKey_data] at hd
    obtain ⟨e1, r1⟩ := colon_split _ _ _ _ hm1 hm2 hd
    obtain ⟨e2, r2⟩ := colon_split _ _ _ _ hu1 hu2 r1
    obtain ⟨e3, r3⟩ := colon_split _ _ _ _ hf1 hf2 r2
    exact ⟨String.ext e1, String.ext e2, String.ext e3, String.ext r3⟩
  · rintro ⟨e1, e2, e3, e4⟩
    apply String.ext
    rw [cacheKey_data, cacheKey_data, e1, e2, e3, e4]

/-- Claim C1 counterexample: the claim asserts that a request with the
charset parameter absent gets a different key from one with the empty
string charset; in the code both keys are `"GET:http://example.com:get:"`. -/
theorem cacheKey_absent_vs_empty :
    cacheKey "GET" "http://example.com" "get" none =
      cacheKey "GET" "http://example.com" "get" (some "") := rfl

/-- Witness for `cacheKey_eq_iff` at concrete colon-free inputs. -/
theorem cacheKey_eq_iff_witness :
    cacheKey "GET" "http/e" "get" (some "a") ≠ cacheKey "HEAD" "http/e" "get" (some "a") := by
  intro h
  have := (cacheKey_eq_iff "GET" "http/e" "get" "HEAD" "http/e" "get"
    (some "a") (some "a") (by decide) (by decide) (by decide) (by decide)
    (by decide) (by decide)).mp h
  exact absurd this.1 (by decide)

/-! Eviction behaviour of `ResponseCache.set` (claim C3). -/

theorem set_no_clear (c : ResponseCache) (k : String) (v : TimedPage)
    (ttl now : Int) (h : c.cache.length < c.maxSize) :
    (c.set k v ttl now).cache = insertEntry k ⟨v, now + ttl⟩ c.cache := by
  simp [ResponseCache.set, Nat.not_le.mpr h]

theorem fillStore_fresh (v : TimedPage) (ttl now : Int) :
    ∀ (ks : List String) (c : ResponseCache), ks.Nodup →
      (∀ k ∈ ks, lookupEntry k c.cache = none) →
      c.cache.length + ks.length ≤ c.maxSize →
      (fillStore ks v ttl now c).cache =
          c.cache ++ ks.map (fun k => (k, (⟨v, now + ttl⟩ : CacheItem))) ∧
        (fillStore ks v ttl now c).maxSize = c.maxSize := by
  intro ks
  induction ks with
  | nil => intro c _ _ _; simp [fillStore]
  | cons k rest ih =>
    intro c hnd hf hlen
    have hlt : c.cache.length < c.maxSize := by
      simp only [List.length_cons] at hlen; omega
    have hset : (c.set k v ttl now).cache = c.cache ++ [(k, (⟨v, now + ttl⟩ : CacheItem))] := by
      rw [set_no_clear c k v ttl now hlt,
        insertEntry_fresh _ _ _ (hf k (List.mem_cons_self k rest))]
    have hmax : (c.set k v ttl now).maxSize = c.maxSize := rfl
    obtain ⟨hknr, hnd'⟩ := List.nodup_cons.mp hnd
    have hf' : ∀ k' ∈ rest, lookupEntry k' (c.set k v ttl now).cache = none := by
      intro k' hk'
      rw [set_no_clear c k v ttl now hlt,
        lookupEntry_insert_ne k k' _ (fun e => hknr (e ▸ hk'))]
      exact hf k' (List.mem_cons_of_mem _ hk')
    have hlen' : (c.set k v ttl now).cache.length + rest.length ≤ (c.set k v ttl now).maxSize := by
      rw [hmax, hset]
      simp only [List.length_append, List.length_cons] at hlen ⊢
      simp only [List.length_nil]
      omega
    obtain ⟨h1, h2⟩ := ih (c.set k v ttl now) hnd' hf' hlen'
    refine ⟨?_, ?_⟩
    · show (fillStore rest v ttl now (c.set k v ttl now)).cache = _
      rw [h1, hset]
      simp [List.append_assoc]
    · show (fillStore rest v ttl now (c.set k v ttl now)).maxSize = _
      rw [h2, hmax]

/-- Claim C3: if `set` runs while the entry count is at or above
`maxSize`, the whole store is cleared before inserting, so the result is
exactly the one new entry; and inserting `maxSize + 1` distinct keys into
a fresh store leaves exactly one entry — the last key inserted. -/
theorem responseCache_eviction_cliff :
    (∀ (c : ResponseCache) (k : String) (v : TimedPage) (ttl now : Int),
      c.cache.length ≥ c.maxSize →
      (c.set k v ttl now).cache = [(k, ⟨v, now + ttl⟩)]) ∧
    (∀ (n : Nat) (ks : List String) (v : TimedPage) (ttl now : Int),
      ks.Nodup → ks.length = n + 1 →
      ∃ l, ks.getLast? = some l ∧
        (fillStore ks v ttl now ⟨[], n⟩).cache = [(l, ⟨v, now + ttl⟩)]) := by
  constructor
  · intro c k v ttl now h
    simp [ResponseCache.set, h, insertEntry]
  · intro n ks v ttl now hnd hlen
    have hne : ks ≠ [] := by intro e; rw [e] at hlen; simp at hlen
    refine ⟨ks.getLast hne, List.getLast?_eq_getLast ks hne, ?_⟩
    have hdecomp : ks.dropLast ++ [ks.getLast hne] = ks := List.dropLast_append_getLast hne
    have hnd' : ks.dropLast.Nodup := hnd.sublist (List.dropLast_sublist ks)
    have hlen' : ks.dropLast.length = n := by
      rw [List.length_dropLast, hlen]
      omega
    obtain ⟨hcache, hmax⟩ := fillStore_fresh v ttl now ks.dropLast ⟨[], n⟩ hnd'
      (fun _ _ => rfl) (by simp [hlen'])
    have hstep : fillStore ks v ttl now ⟨[], n⟩ =
        (fillStore ks.dropLast v ttl now ⟨[], n⟩).set (ks.getLast hne) v ttl now := by
      conv_lhs => rw [← hdecomp]
      simp [fillStore, List.foldl_append]
    rw [hstep]
    have hfull : (fillStore ks.dropLast v ttl now ⟨[], n⟩).cache.length ≥
        (fillStore ks.dropLast v ttl now ⟨[], n⟩).maxSize := by
      rw [hcache, hmax]
      simp
      omega
    simp [ResponseCache.set, hfull, insertEntry]

/-- Witness for `responseCache_eviction_cliff`: two distinct keys into a
fresh store of capacity 1 leave exactly the entry for the second key. -/
theorem responseCache_eviction_cliff_witness :
    ∃ l, (["a", "b"] : List String).getLast? = some l ∧
      (fillStore ["a", "b"] pg0 7 0 ⟨[], 1⟩).cache = [(l, ⟨pg0, 0 + 7⟩)] :=
  responseCache_eviction_cliff.2 1 ["a", "b"] pg0 7 0 (by decide) rfl

/-! Structure lemmas for `create_response` and `process_request`. -/

theorem encodePage_fst_page_only (p : Params) (hs : List (String × Option String))
    (tp tq : TimedPage) (rt : Int) (h : tp.page = tq.page) :
    (encodePage p hs tp rt).1 = (encodePage p hs tq rt).1 := by
  cases tp with
  | mk pg o1 =>
    cases tq with
    | mk pg2 o2 =>
      simp only at h
      subst h
      by_cases hc : p.format = "raw" ∧ hasError pg = false
      · simp [encodePage, hc]
      · cases htr : truthy p.callback <;> simp [encodePage, hc, htr]

theorem encodePage_snd_page (p : Params) (hs : List (String × Option String))
    (tp : TimedPage) (rt : Int) :
    (encodePage p hs tp rt).2.page = tp.page := by
  by_cases hc : p.format = "raw" ∧ hasError tp.page = false
  · simp [encodePage, hc]
  · cases htr : truthy p.callback <;> simp [encodePage, hc, htr]

theorem encodePage_mem_headers (p : Params) (hs : List (String × Option String))
    (tp : TimedPage) (rt : Int) (x : String × Option String) (hx : x ∈ hs) :
    x ∈ (encodePage p hs tp rt).1.headers := by
  by_cases hc : p.format = "raw" ∧ hasError tp.page = false
  · simp [encodePage, hc]
    exact Or.inl hx
  · cases htr : truthy p.callback <;>
      simp [encodePage, hc, htr] <;> exact Or.inl hx

theorem cacheControlHeaders_ok (p : Params)
    (h : (cacheMaxAgeVal p.toArgs).isSome = true ∨ p.disableCache = some "true" ∨
      ¬(p.requestMethod = "GET" ∨ p.requestMethod = "HEAD")) :
    ∃ hs, cacheControlHeaders p = .ok hs := by
  unfold cacheControlHeaders
  by_cases hm : p.requestMethod = "GET" ∨ p.requestMethod = "HEAD"
  · rw [if_pos hm]
    by_cases hd : p.disableCache = some "true"
    · rw [if_pos hd]; exact ⟨_, rfl⟩
    · rw [if_neg hd]
      rcases h with h | h | h
      · cases hv : cacheMaxAgeVal p.toArgs with
        | none => rw [hv] at h; simp at h
        | some n => exact ⟨_, rfl⟩
      · exact absurd h hd
      · exact absurd hm h
  · rw [if_neg hm]; exact ⟨_, rfl⟩

theorem createResponse_ok (p : Params) (tp : TimedPage) (rt : Int)
    (h : (cacheMaxAgeVal p.toArgs).isSome = true ∨ p.disableCache = some "true" ∨
      ¬(p.requestMethod = "GET" ∨ p.requestMethod = "HEAD")) :
    ∃ r, createResponse p tp rt = .ok r := by
  obtain ⟨hs, hh⟩ := cacheControlHeaders_ok p h
  exact ⟨_, by rw [createResponse, hh]; rfl⟩

theorem createResponse_snd_page (p : Params) (tp : TimedPage) (rt : Int)
    (r : Resp × TimedPage) (h : createResponse p tp rt = .ok r) :
    r.2.page = tp.page := by
  unfold createResponse at h
  cases hh : cacheControlHeaders p with
  | error e => rw [hh] at h; simp [Except.map] at h
  | ok hs =>
    rw [hh] at h
    simp only [Except.map] at h
    cases h
    exact encodePage_snd_page ..

theorem createResponse_fst_page_only (p : Params) (tp tq : TimedPage) (rt : Int)
    (h : tp.page = tq.page) :
    (createResponse p tp rt).map Prod.fst = (createResponse p tq rt).map Prod.fst := by
  unfold createResponse
  cases hh : cacheControlHeaders p with
  | error e => rfl
  | ok hs =>
    simp only [Except.map]
    rw [encodePage_fst_page_only p _ tp tq rt h]

theorem processRequest_missFrom
    (T : Transport) (K : Codecs) (fmt method : String) (args : Args)
    (t1 t2 t3 t4 : Int) (store store1 : ResponseCache) (u : String)
    (hopt : method ≠ "OPTIONS") (hu : args.url = some u)
    (hcond : (method = "GET" ∨ method = "HEAD") ∧ ¬(args.disableCache = some "true"))
    (hget : ResponseCache.get store (cacheKey method u fmt args.charset) t2 = (none, store1))
    (page : FetchResult) (hpage : getPage T K ⟨args, fmt, method⟩ = .ok page)
    (r : Resp × TimedPage)
    (hcr : createResponse ⟨args, fmt, method⟩ ⟨page, none⟩ (t3 - t1) = .ok r)
    (n : Int) (hage : cacheMaxAgeVal args = some n) :
    processRequest T K fmt method args t1 t2 t3 t4 store =
      .ok ⟨r.1, store1.set (cacheKey method u fmt args.charset) r.2 (max 300 n) t4, true⟩ := by
  unfold processRequest
  rw [if_neg hopt, hu]
  simp only [if_pos hcond, hget, hpage, hcr, hage, Except.bind]

theorem processRequest_miss
    (T : Transport) (K : Codecs) (fmt method : String) (args : Args)
    (t1 t2 t3 t4 : Int) (store : ResponseCache) (u : String)
    (hopt : method ≠ "OPTIONS") (hu : args.url = some u)
    (hcond : (method = "GET" ∨ method = "HEAD") ∧ ¬(args.disableCache = some "true"))
    (hmiss : lookupEntry (cacheKey method u fmt args.charset) store.cache = none)
    (page : FetchResult) (hpage : getPage T K ⟨args, fmt, method⟩ = .ok page)
    (r : Resp × TimedPage)
    (hcr : createResponse ⟨args, fmt, method⟩ ⟨page, none⟩ (t3 - t1) = .ok r)
    (n : Int) (hage : cacheMaxAgeVal args = some n) :
    processRequest T K fmt method args t1 t2 t3 t4 store =
      .ok ⟨r.1, store.set (cacheKey method u fmt args.charset) r.2 (max 300 n) t4, true⟩ := by
  apply processRequest_missFrom T K fmt method args t1 t2 t3 t4 store store u hopt hu hcond
    _ page hpage r hcr n hage
  unfold ResponseCache.get
  rw [hmiss]

theorem processRequest_nocache
    (T : Transport) (K : Codecs) (fmt method : String) (args : Args)
    (t1 t2 t3 t4 : Int) (store : ResponseCache) (u : String)
    (hopt : method ≠ "OPTIONS") (hu : args.url = some u)
    (hcond : ¬((method = "GET" ∨ method = "HEAD") ∧ ¬(args.disableCache = some "true")))
    (page : FetchResult) (hpage : getPage T K ⟨args, fmt, method⟩ = .ok page)
    (r : Resp × TimedPage)
    (hcr : createResponse ⟨args, fmt, method⟩ ⟨page, none⟩ (t3 - t1) = .ok r) :
    processRequest T K fmt method args t1 t2 t3 t4 store = .ok ⟨r.1, store, true⟩ := by
  unfold processRequest
  rw [if_neg hopt, hu]
  simp only [if_neg hcond, hpage, hcr, Except.bind]

theorem processRequest_hit
    (T : Transport) (K : Codecs) (fmt method : String) (args : Args)
    (t1 t2 t3 t4 : Int) (store : ResponseCache) (u : String)
    (hopt : method ≠ "OPTIONS") (hu : args.url = some u)
    (hcond : (method = "GET" ∨ method = "HEAD") ∧ ¬(args.disableCache = some "true"))
    (it : CacheItem)
    (hhit : lookupEntry (cacheKey method u fmt args.charset) store.cache = some it)
    (hfresh : t2 < it.expiry)
    (r : Resp × TimedPage)
    (hcr : createResponse ⟨args, fmt, method⟩ it.data (t3 - t1) = .ok r) :
    processRequest T K fmt method args t1 t2 t3 t4 store =
      .ok ⟨r.1, ⟨updateData (cacheKey method u fmt args.charset) r.2 store.cache,
        store.maxSize⟩, false⟩ := by
  have hget : ResponseCache.get store (cacheKey method u fmt args.charset) t2 =
      (some it.data, store) := by
    unfold ResponseCache.get
    rw [hhit]
    simp [hfresh]
  unfold processRequest
  rw [if_neg hopt, hu]
  simp only [if_pos hcond, hget, hcr, Except.map]

/-- Claim C9: for every store state and key, `get` returns the stored
value only when the current time is strictly before the entry's expiry;
a lookup that finds an entry whose expiry has passed deletes that entry
and returns absent, so an expired entry is never surfaced. -/
theorem responseCache_get_expiry :
    (∀ (c : ResponseCache) (k : String) (now : Int) (v : TimedPage),
      (c.get k now).1 = some v →
      ∃ it, lookupEntry k c.cache = some it ∧ it.data = v ∧ now < it.expiry) ∧
    (∀ (c : ResponseCache) (k : String) (now : Int) (it : CacheItem),
      lookupEntry k c.cache = some it → it.expiry ≤ now →
      c.get k now = (none, ⟨eraseKey k c.cache, c.maxSize⟩)) := by
  constructor
  · intro c k now v h
    unfold ResponseCache.get at h
    cases hl : lookupEntry k c.cache with
    | none => rw [hl] at h; simp at h
    | some it =>
      rw [hl] at h
      by_cases ht : now < it.expiry
      · simp only [if_pos ht] at h
        simp at h
        exact ⟨it, rfl, h, ht⟩
      · simp only [if_neg ht] at h
        simp at h
  · intro c k now it hl ht
    unfold ResponseCache.get
    rw [hl]
    simp [not_lt.mpr ht]

/-- Witness for `responseCache_get_expiry`: a store holding an entry
expired at 3, read at time 10, deletes it and returns absent. -/
theorem responseCache_get_expiry_witness :
    ResponseCache.get ⟨[("k", ⟨pg0, 3⟩)], 5⟩ "k" 10 = (none, ⟨[], 5⟩) :=
  responseCache_get_expiry.2 ⟨[("k", ⟨pg0, 3⟩)], 5⟩ "k" 10 ⟨pg0, 3⟩ (by decide) (by decide)

/-- Claim C10: a cache hit never extends an entry's lifetime: `get` on an
unexpired entry or an absent key leaves the store unchanged, and on a hit
the pipeline returns without fetching and without calling `set`, so every
stored expiry timestamp is exactly what it was before the request. -/
theorem cache_hit_no_refresh :
    (∀ (c : ResponseCache) (k : String) (now : Int) (it : CacheItem),
      lookupEntry k c.cache = some it → now < it.expiry →
      c.get k now = (some it.data, c)) ∧
    (∀ (c : ResponseCache) (k : String) (now : Int),
      lookupEntry k c.cache = none → c.get k now = (none, c)) ∧
    (∀ (T : Transport) (K : Codecs) (fmt method : String) (args : Args)
      (t1 t2 t3 t4 : Int) (s : ResponseCache) (u : String) (it : CacheItem),
      (method = "GET" ∨ method = "HEAD") → ¬(args.disableCache = some "true") →
      args.url = some u →
      lookupEntry (cacheKey method u fmt args.charset) s.cache = some it →
      t2 < it.expiry →
      (cacheMaxAgeVal args).isSome = true →
      ∃ out, processRequest T K fmt method args t1 t2 t3 t4 s = .ok out ∧
        out.fetched = false ∧
        ∀ k', (lookupEntry k' out.store.cache).map CacheItem.expiry =
          (lookupEntry k' s.cache).map CacheItem.expiry) := by
  refine ⟨?_, ?_, ?_⟩
  · intro c k now it hl ht
    unfold ResponseCache.get
    rw [hl]
    simp [ht]
  · intro c k now hl
    unfold ResponseCache.get
    rw [hl]
  · intro T K fmt method args t1 t2 t3 t4 s u it hm hdc hu hl ht hage
    have hopt : method ≠ "OPTIONS" := by
      rcases hm with h | h <;> subst h <;> decide
    obtain ⟨r, hcr⟩ := createResponse_ok ⟨args, fmt, method⟩ it.data (t3 - t1) (Or.inl hage)
    refine ⟨_, processRequest_hit T K fmt method args t1 t2 t3 t4 s u hopt hu
      ⟨hm, hdc⟩ it hl ht r hcr, rfl, ?_⟩
    intro k'
    exact lookupEntry_updateData_expiry _ k' _ s.cache

/-- Witness for `cache_hit_no_refresh`: a hit on an unexpired entry
returns without fetching and leaves the stored expiry at 100. -/
theorem cache_hit_no_refresh_witness :
    ∃ out, processRequest failT noCodecs "get" "GET" ⟨some "u", none, none, none, none⟩
        0 0 0 0 ⟨[("GET:u:get:", ⟨pg0, 100⟩)], 1000⟩ = .ok out ∧
      out.fetched = false ∧
      ∀ k', (lookupEntry k' out.store.cache).map CacheItem.expiry =
        (lookupEntry k' [("GET:u:get:", ⟨pg0, 100⟩)]).map CacheItem.expiry :=
  cache_hit_no_refresh.2.2 failT noCodecs "get" "GET" ⟨some "u", none, none, none, none⟩
    0 0 0 0 ⟨[("GET:u:get:", ⟨pg0, 100⟩)], 1000⟩ "u" ⟨pg0, 100⟩
    (Or.inl rfl) (by decide) rfl (by decide) (by decide) rfl

/-- Claim C2: a cacheable (GET/HEAD) request with caching enabled that
misses and fetches result `P`, followed by an identical request before the
stored entry's expiry (`b2 < a4 + max 300 n`), yields on the second run a
response produced by `create_response` from the SAME fetch result `P`,
differing only in the injected `response_time` (`b3 - b1` instead of
`a3 - a1`), and does not invoke the outbound fetch again. -/
theorem cached_request_identical
    (T : Transport) (K : Codecs) (fmt method : String) (args : Args)
    (a1 a2 a3 a4 b1 b2 b3 b4 : Int) (s0 : ResponseCache) (u : String)
    (P : FetchResult) (n : Int)
    (hm : method = "GET" ∨ method = "HEAD")
    (hdc : ¬(args.disableCache = some "true"))
    (hu : args.url = some u)
    (hmiss : lookupEntry (cacheKey method u fmt args.charset) s0.cache = none)
    (hfetch : getPage T K ⟨args, fmt, method⟩ = .ok P)
    (hage : cacheMaxAgeVal args = some n)
    (hwin : b2 < a4 + max 300 n) :
    ∃ out1 out2 pg1 pg2,
      processRequest T K fmt method args a1 a2 a3 a4 s0 = .ok out1 ∧
      out1.fetched = true ∧
      processRequest T K fmt method args b1 b2 b3 b4 out1.store = .ok out2 ∧
      out2.fetched = false ∧
      createResponse ⟨args, fmt, method⟩ ⟨P, none⟩ (a3 - a1) = .ok (out1.resp, pg1) ∧
      createResponse ⟨args, fmt, method⟩ ⟨P, none⟩ (b3 - b1) = .ok (out2.resp, pg2) := by
  have hopt : method ≠ "OPTIONS" := by
    rcases hm with h | h <;> subst h <;> decide
  have hsome : (cacheMaxAgeVal args).isSome = true := by rw [hage]; rfl
  obtain ⟨r1, hcr1⟩ := createResponse_ok ⟨args, fmt, method⟩ ⟨P, none⟩ (a3 - a1)
    (Or.inl hsome)
  have h1 := processRequest_miss T K fmt method args a1 a2 a3 a4 s0 u hopt hu
    ⟨hm, hdc⟩ hmiss P hfetch r1 hcr1 n hage
  have hl1 : lookupEntry (cacheKey method u fmt args.charset)
      (s0.set (cacheKey method u fmt args.charset) r1.2 (max 300 n) a4).cache =
      some ⟨r1.2, a4 + max 300 n⟩ :=
    lookupEntry_insert_self _ _ _
  obtain ⟨r2, hcr2⟩ := createResponse_ok ⟨args, fmt, method⟩ r1.2 (b3 - b1)
    (Or.inl hsome)
  have h2 := processRequest_hit T K fmt method args b1 b2 b3 b4
    (s0.set (cacheKey method u fmt args.charset) r1.2 (max 300 n) a4) u hopt hu
    ⟨hm, hdc⟩ ⟨r1.2, a4 + max 300 n⟩ hl1 hwin r2 hcr2
  have hpg : (⟨P, none⟩ : TimedPage).page = r1.2.page :=
    (createResponse_snd_page _ _ _ _ hcr1).symm
  have hmap := createResponse_fst_page_only ⟨args, fmt, method⟩ ⟨P, none⟩ r1.2
    (b3 - b1) hpg
  rw [hcr2] at hmap
  cases hc3 : createResponse ⟨args, fmt, method⟩ ⟨P, none⟩ (b3 - b1) with
  | error e => rw [hc3] at hmap; simp [Except.map] at hmap
  | ok r3 =>
    rw [hc3] at hmap
    simp only [Except.map] at hmap
    have hr31 : r3.1 = r2.1 := by
      injection hmap
    refine ⟨_, _, r1.2, r3.2, h1, rfl, h2, rfl, hcr1, ?_⟩
    show Except.ok r3 = Except.ok (r2.1, r3.2)
    rw [← hr31]

/-- Witness for `cached_request_identical`: a concrete second identical
GET within the TTL window is served without a second fetch. -/
theorem cached_request_identical_witness :
    ∃ out1 out2 pg1 pg2,
      processRequest failT noCodecs "get" "GET" args0 0 0 5 7 ⟨[], 1000⟩ = .ok out1 ∧
      out1.fetched = true ∧
      processRequest failT noCodecs "get" "GET" args0 10 11 12 13 out1.store = .ok out2 ∧
      out2.fetched = false ∧
      createResponse ⟨args0, "get", "GET"⟩ ⟨.content none (.err "x"), none⟩ (5 - 0) =
        .ok (out1.resp, pg1) ∧
      createResponse ⟨args0, "get", "GET"⟩ ⟨.content none (.err "x"), none⟩ (12 - 10) =
        .ok (out2.resp, pg2) :=
  cached_request_identical failT noCodecs "get" "GET" args0 0 0 5 7 10 11 12 13
    ⟨[], 1000⟩ "http://e" (.content none (.err "x")) 3600
    (Or.inl rfl) (by decide) rfl rfl (by decide) rfl (by decide)

/-- Claim C4 (amended): any transport-level failure in any of the three
fetch branches is caught and becomes an error-shaped result rather than an
exception; and the full pipeline returns a well-formed response whenever
the supplied `cacheMaxAge` parses as an integer and the fetch itself does
not raise.  (The original claim is false: an unknown charset name raises
an uncaught `LookupError`, and a non-integer `cacheMaxAge` raises an
uncaught `ValueError` — see the counterexample.) -/
theorem uniform_failure_contract :
    (∀ (T : Transport) (u msg : String), T.head u = .error msg →
      getPageInfo T u = .ok (.err msg)) ∧
    (∀ (T : Transport) (K : Codecs) (u m : String) (c : Option String) (msg : String),
      T.request m u = .error msg → getRawPage T K u m c = .ok (.err msg)) ∧
    (∀ (T : Transport) (K : Codecs) (u m : String) (c : Option String) (msg : String),
      T.request m u = .error msg →
      getPageContents T K u m c = .ok (.content none (.err msg))) ∧
    (∀ (T : Transport) (K : Codecs) (fmt method : String) (args : Args)
      (t1 t2 t3 t4 : Int) (s : ResponseCache),
      (cacheMaxAgeVal args).isSome = true →
      (∃ P, getPage T K ⟨args, fmt, method⟩ = .ok P) →
      ∃ out, processRequest T K fmt method args t1 t2 t3 t4 s = .ok out) := by
  refine ⟨?_, ?_, ?_, ?_⟩
  · intro T u msg h
    unfold getPageInfo
    rw [h]
  · intro T K u m c msg h
    unfold getRawPage
    rw [h]
  · intro T K u m c msg h
    unfold getPageContents
    rw [h]
  · intro T K fmt method args t1 t2 t3 t4 s hage hP
    obtain ⟨P, hP⟩ := hP
    by_cases hopt : method = "OPTIONS"
    · exact ⟨_, by unfold processRequest; rw [if_pos hopt]⟩
    · cases hu : args.url with
      | none => exact ⟨_, by unfold processRequest; rw [if_neg hopt, hu]⟩
      | some u =>
        by_cases hcond : (method = "GET" ∨ method = "HEAD") ∧
            ¬(args.disableCache = some "true")
        · cases hn : cacheMaxAgeVal args with
          | none => rw [hn] at hage; simp at hage
          | some n =>
            cases hl : lookupEntry (cacheKey method u fmt args.charset) s.cache with
            | some it =>
              by_cases ht : t2 < it.expiry
              · obtain ⟨r, hcr⟩ := createResponse_ok ⟨args, fmt, method⟩ it.data
                  (t3 - t1) (Or.inl hage)
                exact ⟨_, processRequest_hit T K fmt method args t1 t2 t3 t4 s u
                  hopt hu hcond it hl ht r hcr⟩
              · obtain ⟨r, hcr⟩ := createResponse_ok ⟨args, fmt, method⟩ ⟨P, none⟩
                  (t3 - t1) (Or.inl hage)
                refine ⟨_, processRequest_missFrom T K fmt method args t1 t2 t3 t4 s
                  ⟨eraseKey (cacheKey method u fmt args.charset) s.cache, s.maxSize⟩ u
                  hopt hu hcond ?_ P hP r hcr n hn⟩
                unfold ResponseCache.get
                rw [hl]
                simp [ht]
            | none =>
              obtain ⟨r, hcr⟩ := createResponse_ok ⟨args, fmt, method⟩ ⟨P, none⟩
                (t3 - t1) (Or.inl hage)
              exact ⟨_, processRequest_miss T K fmt method args t1 t2 t3 t4 s u
                hopt hu hcond hl P hP r hcr n hn⟩
        · obtain ⟨r, hcr⟩ := createResponse_ok ⟨args, fmt, method⟩ ⟨P, none⟩
            (t3 - t1) (Or.inl hage)
          exact ⟨_, processRequest_nocache T K fmt method args t1 t2 t3 t4 s u
            hopt hu hcond P hP r hcr⟩

/-- Claim C4 counterexample: three concrete uncaught exceptions — a GET
with `cacheMaxAge=abc` raises `ValueError` out of the whole pipeline, and
an unknown charset name raises `LookupError` out of `get_raw_page` and
`get_page_contents` even though the fetch succeeded. -/
theorem uncaught_exception_counterexample :
    processRequest failT noCodecs "get" "GET"
        ⟨some "http://e", none, none, some "abc", none⟩ 0 0 0 0 ⟨[], 1000⟩ =
      .error (.valueError "abc") ∧
    getRawPage okT noCodecs "http://e" "GET" (some "bogus") =
      .error (.lookupError "bogus") ∧
    getPageContents okT noCodecs "http://e" "GET" (some "bogus") =
      .error (.lookupError "bogus") := by
  refine ⟨by decide, by decide, by decide⟩

/-- Witness for `uniform_failure_contract`: a concrete transport failure
becomes an error dict, and a concrete failed fetch still yields a
well-formed pipeline response. -/
theorem uniform_failure_contract_witness :
    getPageInfo failT "http://e" = .ok (.err "x") ∧
    (∃ out, processRequest failT noCodecs "get" "GET" args0 0 0 0 0 ⟨[], 1000⟩ =
      .ok out) :=
  ⟨uniform_failure_contract.1 failT "http://e" "x" rfl,
   uniform_failure_contract.2.2.2 failT noCodecs "get" "GET" args0 0 0 0 0
     ⟨[], 1000⟩ rfl ⟨.content none (.err "x"), by decide⟩⟩

/-- Claim C5 (amended): on the info branch `contentLength` equals the
`content-length` header parsed as an integer, and `-1` when the header is
absent; but a present-yet-unparsable header raises an uncaught
`ValueError` instead of defaulting to `-1` (see the counterexample). -/
theorem info_content_length (T : Transport) (u : String) (r : HttpResp)
    (h : T.head u = .ok r) :
    (r.contentLength = none →
      getPageInfo T u = .ok (.info u r.contentType (-1) r.statusCode)) ∧
    (∀ s n, r.contentLength = some s → pyInt s = some n →
      getPageInfo T u = .ok (.info u r.contentType n r.statusCode)) ∧
    (∀ s, r.contentLength = some s → pyInt s = none →
      getPageInfo T u = .error (.valueError s)) := by
  refine ⟨?_, ?_, ?_⟩
  · intro hcl
    unfold getPageInfo
    rw [h]
    simp [hcl]
  · intro s n hcl hn
    unfold getPageInfo
    rw [h]
    simp [hcl, hn]
  · intro s hcl hn
    unfold getPageInfo
    rw [h]
    simp [hcl, hn]

/-- Claim C5 counterexample: a response whose `content-length` header is
`"abc"` makes `get_page_info` raise `ValueError`, not return `-1`. -/
theorem info_content_length_counterexample :
    getPageInfo badLenT "http://e" = .error (.valueError "abc") := by decide

/-- Witness for `info_content_length`: an absent header yields `-1`. -/
theorem info_content_length_witness :
    getPageInfo okT "http://e" = .ok (.info "http://e" (some "text/html") (-1) 200) :=
  (info_content_length okT "http://e" ⟨200, some "text/html", none, [104, 105]⟩ rfl).1 rfl

/-- Claim C6: whenever a truthy `callback` parameter is present and the
result is JSON-encoded (not the raw-bytes short-circuit), the body is
exactly `callback(<json.dumps of the response-time-injected page>);` and
the response is served with the script mimetype, not `application/json`. -/
theorem jsonp_wrapping (p : Params) (tp : TimedPage) (rt : Int) (cb : String)
    (r : Resp × TimedPage)
    (hcb : p.callback = some cb) (hne : cb ≠ "")
    (hjson : ¬(p.format = "raw" ∧ hasError tp.page = false))
    (h : createResponse p tp rt = .ok r) :
    r.1.body = .str (cb ++ "(" ++ dumpPage ⟨tp.page, some rt⟩ ++ ");") ∧
    r.1.mimetype = some "application/javascript" ∧
    r.1.mimetype ≠ some "application/json" := by
  unfold createResponse at h
  cases hh : cacheControlHeaders p with
  | error e => rw [hh] at h; simp [Except.map] at h
  | ok hs =>
    rw [hh] at h
    simp only [Except.map] at h
    injection h with h
    have htr : truthy p.callback = true := by simp [truthy, hcb, hne]
    have hcond : (truthy p.callback = true) = True := by simp [htr]
    rw [← h]
    simp only [encodePage, if_neg hjson, hcond, if_true]
    exact ⟨by simp [hcb], by simp, by decide⟩

/-- Witness for `jsonp_wrapping` at a concrete callback request. -/
theorem jsonp_wrapping_witness :
    ∃ r, createResponse ⟨⟨some "http://e", none, none, none, some "foo"⟩, "get", "GET"⟩
        ⟨.err "boom", none⟩ 5 = .ok r ∧
      r.1.body = .str ("foo" ++ "(" ++ dumpPage ⟨.err "boom", some 5⟩ ++ ");") ∧
      r.1.mimetype = some "application/javascript" ∧
      r.1.mimetype ≠ some "application/json" := by
  obtain ⟨r, hr⟩ := createResponse_ok
    ⟨⟨some "http://e", none, none, none, some "foo"⟩, "get", "GET"⟩
    ⟨.err "boom", none⟩ 5 (Or.inl rfl)
  exact ⟨r, hr, jsonp_wrapping _ _ 5 "foo" r rfl (by decide) (by decide) hr⟩

/-- Claim C7 (amended): `format=info` or `method=HEAD` routes to the
header probe and never decodes a body (the result does not depend on the
codec oracle at all); `format=raw` with a non-error result is emitted as
raw bytes, never JSON-wrapped (a raw-format ERROR result IS JSON-wrapped —
see the counterexample); and the default content format, when any supplied
charset names a known codec, always yields a `content` page with a
`contents` field that is either a decoded string with an ok status or
`null` together with a `status.error`. -/
theorem format_routing :
    (∀ (T : Transport) (K K' : Codecs) (p : Params),
      strLower p.format = "info" ∨ p.requestMethod = "HEAD" →
      getPage T K p = getPageInfo T (p.url.getD "") ∧ getPage T K p = getPage T K' p) ∧
    (∀ (p : Params) (tp : TimedPage) (rt : Int) (r : Resp × TimedPage),
      p.format = "raw" → hasError tp.page = false →
      createResponse p tp rt = .ok r →
      r.1.body = .bytes (pageContent tp.page)) ∧
    (∀ (T : Transport) (K : Codecs) (p : Params),
      ¬(strLower p.format = "info") → ¬(strLower p.format = "raw") →
      ¬(p.requestMethod = "HEAD") →
      (truthy p.charset = true → ∀ b, K.decode (p.charset.getD "") b ≠ .lookupError) →
      ∃ c st, getPage T K p = .ok (.content c st) ∧
        ((∃ s, c = some s ∧ ∃ u2 ct cl hc, st = .ok u2 ct cl hc) ∨
         (c = none ∧ ∃ e, st = .err e))) := by
  refine ⟨?_, ?_, ?_⟩
  · intro T K K' p h
    constructor
    · unfold getPage
      rw [if_pos h]
    · unfold getPage
      rw [if_pos h, if_pos h]
  · intro p tp rt r hraw herr h
    unfold createResponse at h
    cases hh : cacheControlHeaders p with
    | error e => rw [hh] at h; simp [Except.map] at h
    | ok hs =>
      rw [hh] at h
      simp only [Except.map] at h
      injection h with h
      rw [← h]
      simp [encodePage, hraw, herr]
  · intro T K p h1 h2 h3 hdec
    unfold getPage
    rw [if_neg (not_or.mpr ⟨h1, h3⟩), if_neg h2]
    unfold getPageContents
    cases hr : T.request p.requestMethod (p.url.getD "") with
    | error e =>
      exact ⟨none, .err e, by simp, Or.inr ⟨rfl, e, rfl⟩⟩
    | ok resp =>
      by_cases htr : truthy p.charset = true
      · cases hd : K.decode (p.charset.getD "") resp.content with
        | ok s =>
          refine ⟨some s, .ok (p.url.getD "") resp.contentType
            (resp.content.length : Int) resp.statusCode,
            by simp [htr, hd, Except.map], Or.inl ⟨s, rfl, _, _, _, _, rfl⟩⟩
        | unicodeError =>
          refine ⟨some (K.utf8Replace resp.content), .ok (p.url.getD "")
            resp.contentType (resp.content.length : Int) resp.statusCode,
            by simp [htr, hd, Except.map], Or.inl ⟨_, rfl, _, _, _, _, rfl⟩⟩
        | lookupError =>
          exact absurd hd (hdec htr resp.content)
      · refine ⟨some (K.utf8Replace resp.content), .ok (p.url.getD "")
          resp.contentType (resp.content.length : Int) resp.statusCode,
          by simp [htr, Except.map], Or.inl ⟨_, rfl, _, _, _, _, rfl⟩⟩

/-- Claim C7 counterexample: a raw-format request whose fetch failed is
JSON-wrapped (string body, JSON content type) rather than raw; and a
default-format request with an unknown charset raises instead of
producing a JSON object. -/
theorem format_routing_counterexample :
    createResponse ⟨⟨some "http://e", none, none, none, none⟩, "raw", "GET"⟩
        ⟨.err "boom", none⟩ 5 =
      .ok ({ body := .str "\x7b\"error\": \"boom\", \"response_time\": 5\x7d",
             headers := [("Cache-Control", some "public, max-age=3600, stale-if-error=600"),
                         ("Via", some "pyroxy-py v1.0.0"),
                         ("Content-Type", some "application/json; charset=utf-8")],
             mimetype := some "application/json" }, ⟨.err "boom", some 5⟩) ∧
    getPage okT noCodecs ⟨⟨some "http://e", some "bogus", none, none, none⟩, "get", "GET"⟩ =
      .error (.lookupError "bogus") := by
  refine ⟨by decide, by decide⟩

/-- Witness for `format_routing`: the info branch of a concrete request
is codec-independent. -/
theorem format_routing_witness :
    getPage failT noCodecs ⟨args0, "info", "GET"⟩ = getPageInfo failT "http://e" ∧
    getPage failT noCodecs ⟨args0, "info", "GET"⟩ =
      getPage failT ⟨fun _ _ => .ok "q", fun _ => [1], fun _ => "q"⟩ ⟨args0, "info", "GET"⟩ :=
  format_routing.1 failT noCodecs ⟨fun _ _ => .ok "q", fun _ => [1], fun _ => "q"⟩
    ⟨args0, "info", "GET"⟩ (Or.inl (by decide))

/-- Claim C8: a cacheable (GET/HEAD) miss with caching enabled stores the
page with TTL `max(300, cacheMaxAge)` (no ceiling: `max` alone) and stamps
`Cache-Control: public, max-age=<that same value>, stale-if-error=600`;
with `disableCache="true"` nothing is stored and the header carries
`max-age=0`. -/
theorem ttl_floor
    (T : Transport) (K : Codecs) (fmt method : String) (args : Args)
    (t1 t2 t3 t4 : Int) (s : ResponseCache) (u : String) (P : FetchResult) (n : Int)
    (hm : method = "GET" ∨ method = "HEAD")
    (hu : args.url = some u)
    (hage : cacheMaxAgeVal args = some n)
    (hmiss : lookupEntry (cacheKey method u fmt args.charset) s.cache = none)
    (hfetch : getPage T K ⟨args, fmt, method⟩ = .ok P) :
    (¬(args.disableCache = some "true") →
      ∃ out pg', processRequest T K fmt method args t1 t2 t3 t4 s = .ok out ∧
        createResponse ⟨args, fmt, method⟩ ⟨P, none⟩ (t3 - t1) = .ok (out.resp, pg') ∧
        lookupEntry (cacheKey method u fmt args.charset) out.store.cache =
          some ⟨pg', t4 + max 300 n⟩ ∧
        ("Cache-Control", some ("public, max-age=" ++ toString (max 300 n) ++
          ", stale-if-error=600")) ∈ out.resp.headers) ∧
    (args.disableCache = some "true" →
      ∃ out, processRequest T K fmt method args t1 t2 t3 t4 s = .ok out ∧
        out.store = s ∧ out.fetched = true ∧
        ("Cache-Control", some "public, max-age=0, stale-if-error=600") ∈
          out.resp.headers) := by
  have hopt : method ≠ "OPTIONS" := by
    rcases hm with h | h <;> subst h <;> decide
  constructor
  · intro hdc
    have hcc : cacheControlHeaders ⟨args, fmt, method⟩ =
        .ok [("Cache-Control", some ("public, max-age=" ++ toString (max 300 n) ++
          ", stale-if-error=600"))] := by
      unfold cacheControlHeaders
      dsimp only
      rw [if_pos hm, if_neg hdc, hage]
    have hcr : createResponse ⟨args, fmt, method⟩ ⟨P, none⟩ (t3 - t1) =
        .ok (encodePage ⟨args, fmt, method⟩
          ([("Cache-Control", some ("public, max-age=" ++ toString (max 300 n) ++
            ", stale-if-error=600"))] ++ [("Via", some "pyroxy-py v1.0.0")])
          ⟨P, none⟩ (t3 - t1)) := by
      rw [createResponse, hcc]
      rfl
    have h1 := processRequest_miss T K fmt method args t1 t2 t3 t4 s u hopt hu
      ⟨hm, hdc⟩ hmiss P hfetch _ hcr n hage
    exact ⟨_, _, h1, hcr, lookupEntry_insert_self _ _ _,
      encodePage_mem_headers _ _ _ _ _ (by simp)⟩
  · intro hdc
    have hcc : cacheControlHeaders ⟨args, fmt, method⟩ =
        .ok [("Cache-Control", some "public, max-age=0, stale-if-error=600")] := by
      unfold cacheControlHeaders
      dsimp only
      rw [if_pos hm, if_pos hdc]
    have hcr : createResponse ⟨args, fmt, method⟩ ⟨P, none⟩ (t3 - t1) =
        .ok (encodePage ⟨args, fmt, method⟩
          ([("Cache-Control", some "public, max-age=0, stale-if-error=600")] ++
            [("Via", some "pyroxy-py v1.0.0")]) ⟨P, none⟩ (t3 - t1)) := by
      rw [createResponse, hcc]
      rfl
    have hnc : ¬((method = "GET" ∨ method = "HEAD") ∧
        ¬(args.disableCache = some "true")) := fun hc => hc.2 hdc
    have h1 := processRequest_nocache T K fmt method args t1 t2 t3 t4 s u hopt hu
      hnc P hfetch _ hcr
    exact ⟨_, h1, rfl, rfl, encodePage_mem_headers _ _ _ _ _ (by simp)⟩

/-- Witness for `ttl_floor`: requesting `cacheMaxAge=1` stores with TTL
300 and stamps `max-age=300` — the floor, not the requested value. -/
theorem ttl_floor_witness :
    ∃ out pg', processRequest failT noCodecs "get" "GET"
        ⟨some "u", none, none, some "1", none⟩ 0 0 0 0 ⟨[], 1000⟩ = .ok out ∧
      createResponse ⟨⟨some "u", none, none, some "1", none⟩, "get", "GET"⟩
        ⟨.content none (.err "x"), none⟩ (0 - 0) = .ok (out.resp, pg') ∧
      lookupEntry (cacheKey "GET" "u" "get" none) out.store.cache =
        some ⟨pg', 0 + max 300 1⟩ ∧
      ("Cache-Control", some ("public, max-age=" ++ toString (max 300 (1 : Int)) ++
        ", stale-if-error=600")) ∈ out.resp.headers :=
  (ttl_floor failT noCodecs "get" "GET" ⟨some "u", none, none, some "1", none⟩
    0 0 0 0 ⟨[], 1000⟩ "u" (.content none (.err "x")) 1
    (Or.inl rfl) rfl (by decide) rfl (by decide)).1 (by decide)

end Pyroxy
